import Mathlib

/-!
Verification of the SafeLink sandbox session broker and analysis layer.

JavaScript strings are modelled as `List Char`; JavaScript numbers that hold
counts or scores are modelled as `Nat`; the floating-point similarity score is
modelled as `Rat` (the computation is a single division of small integers).
Stateful session and registry code is modelled as explicit state passing:
each operation maps a state to a new state together with the list of
externally visible actions (messages sent, resources released) it performs.
-/

namespace SafeLink

/-! ## Leetspeak typosquatting detection (live-analyzer, detectTyposquatting)

The source builds an object `leetPatterns` with both directions of each
substitution pair.  JavaScript `Object.entries` enumerates integer-like keys
first in ascending order, then the remaining string keys in insertion order,
so the replacement steps run in the order listed below.  Each step is
`normalized.replace(new RegExp(key, "g"), value)` with a single-character key,
i.e. a global single-character substitution. -/

/-- The fifteen `(key, value)` replacement steps of `leetPatterns`,
in JavaScript `Object.entries` enumeration order. -/
def leetEntries : List (Char × Char) :=
  [('0', 'o'), ('1', 'l'), ('3', 'e'), ('4', 'a'), ('5', 's'), ('7', 't'), ('8', 'b'),
   ('o', '0'), ('l', '1'), ('i', '1'), ('e', '3'), ('s', '5'), ('a', '4'), ('t', '7'), ('b', '8')]

/-- One character of a global single-character replacement. -/
def applyEntry (k v c : Char) : Char := if c = k then v else c

/-- `str.replace(new RegExp(key, "g"), value)` for a one-character key. -/
def replaceAll (k v : Char) (s : List Char) : List Char := s.map (applyEntry k v)

/-- Decide whether a character is a lowercase Latin letter (the `[^a-z]`
stripping step keeps exactly these). -/
def isLowerAlpha (c : Char) : Bool := decide ('a' ≤ c) && decide (c ≤ 'z')

/-- Decide whether a character is an ASCII digit (the `/\d/` test). -/
def isDigitChar (c : Char) : Bool := decide ('0' ≤ c) && decide (c ≤ '9')

/-- `normalizeForComparison` from `detectTyposquatting`: lowercase, run all
fifteen replacement steps in order, then strip every character that is not a
lowercase letter. -/
def normalizeForComparison (domain : List Char) : List Char :=
  (leetEntries.foldl (fun acc p => replaceAll p.1 p.2 acc) (domain.map Char.toLower)).filter
    isLowerAlpha

/-- Object lookup `leetPatterns[char]` (first matching key; keys are unique). -/
def leetLookup (c : Char) : Option Char :=
  (leetEntries.find? (fun p => p.1 = c)).map Prod.snd

/-- Result record of `detectTyposquatting`. -/
structure TyposquatResult where
  detected : Bool
  hasNumbers : Bool
  numbersUsed : List Char
  suspiciousSubstitutions : List (Nat × Char × Char)
  normalizedMatch : Bool
deriving Repr, DecidableEq

/-- `detectTyposquatting(original, target)` from the live analyzer. -/
def detectTyposquatting (original target : List Char) : TyposquatResult :=
  let normalizedOriginal := normalizeForComparison original
  let normalizedTarget := normalizeForComparison target
  let hasNumbers := original.any isDigitChar
  let numbersUsed := original.filter isDigitChar
  let suspiciousSubstitutions :=
    original.enum.filterMap fun p => (leetLookup p.2).map fun v => (p.1, p.2, v)
  { detected := hasNumbers && decide (normalizedOriginal = normalizedTarget)
    hasNumbers := hasNumbers
    numbersUsed := numbersUsed
    suspiciousSubstitutions := suspiciousSubstitutions
    normalizedMatch := decide (normalizedOriginal = normalizedTarget) }

/-- The forward character remap described by the spec sentence for claim C1:
`0→o, 1/i→l, 3→e, 4→a, 5→s, 7→t, 8→b`, all other characters unchanged. -/
def specLeetForward (c : Char) : Char :=
  if c = '0' then 'o'
  else if c = '1' then 'l'
  else if c = 'i' then 'l'
  else if c = '3' then 'e'
  else if c = '4' then 'a'
  else if c = '5' then 's'
  else if c = '7' then 't'
  else if c = '8' then 'b'
  else c

/-- Leet-normalization as the words of claim C1 describe it: apply the
substitution table as a forward character remap, then strip non-alphabetic
characters. -/
def specLeetNormalize (domain : List Char) : List Char :=
  (domain.map specLeetForward).filter isLowerAlpha

/-- The detection predicate claim C1 asserts: the original hostname contains a
digit and the forward-remap normalizations of the two hostnames coincide. -/
def claimC1Detected (original target : List Char) : Bool :=
  original.any isDigitChar && decide (specLeetNormalize original = specLeetNormalize target)

/-- The characters that occur as keys of the substitution table (both the
digits and the letters they impersonate). -/
def substitutionClass : List Char :=
  ['0', 'o', '1', 'l', 'i', '3', 'e', '5', 's', '4', 'a', '7', 't', '8', 'b']

/-- The normalization the code actually computes, in closed form: lowercase
the hostname, then delete every substitution-table character and every
non-alphabetic character. -/
def deleteClassNormalize (domain : List Char) : List Char :=
  (domain.map Char.toLower).filter fun c => isLowerAlpha c && !(decide (c ∈ substitutionClass))

/-- Folding the per-entry global replacements over a list is a pointwise map. -/
theorem foldl_replaceAll_eq_map (es : List (Char × Char)) (s : List Char) :
    es.foldl (fun acc p => replaceAll p.1 p.2 acc) s =
      s.map (fun c => es.foldl (fun c p => applyEntry p.1 p.2 c) c) := by
  induction es generalizing s with
  | nil => simp
  | cons e es ih =>
    rw [List.foldl_cons, ih]
    simp [replaceAll, List.map_map, Function.comp_def]

/-- The pointwise effect of running all fifteen replacement steps on one
character. -/
def leetAll (c : Char) : Char :=
  leetEntries.foldl (fun c p => applyEntry p.1 p.2 c) c

/-- Specialization of `foldl_replaceAll_eq_map` to the fifteen table steps. -/
theorem foldl_leetEntries_eq_map (s : List Char) :
    leetEntries.foldl (fun acc p => replaceAll p.1 p.2 acc) s = s.map leetAll :=
  foldl_replaceAll_eq_map leetEntries s

/-- Every substitution-table character ends up as an ASCII digit after the
fifteen replacement steps, hence outside the lowercase-letter range. -/
theorem leetAll_of_mem {c : Char} (h : c ∈ substitutionClass) :
    isLowerAlpha (leetAll c) = false := by
  simp only [substitutionClass, List.mem_cons, List.not_mem_nil, or_false] at h
  rcases h with rfl | rfl | rfl | rfl | rfl | rfl | rfl | rfl | rfl | rfl | rfl | rfl | rfl |
    rfl | rfl <;> decide

/-- Characters outside the substitution table are untouched by all fifteen
replacement steps. -/
theorem leetAll_of_not_mem {c : Char} (h : c ∉ substitutionClass) : leetAll c = c := by
  simp only [substitutionClass, List.mem_cons, List.not_mem_nil, or_false, not_or] at h
  obtain ⟨h0, ho, h1, hl, hi, h3, he, h5, hs, h4, ha, h7, ht, h8, hb⟩ := h
  simp [leetAll, leetEntries, applyEntry, h0, ho, h1, hl, hi, h3, he, h5, hs, h4, ha, h7, ht, hb,
    h8]

/-- The sequential bidirectional replacement plus stripping computed by the
code equals deleting every substitution-table character and every
non-alphabetic character. -/
theorem normalizeForComparison_eq_deleteClass (domain : List Char) :
    normalizeForComparison domain = deleteClassNormalize domain := by
  unfold normalizeForComparison deleteClassNormalize
  rw [foldl_leetEntries_eq_map]
  generalize domain.map Char.toLower = t
  induction t with
  | nil => rfl
  | cons c t ih =>
    simp only [List.map_cons, List.filter_cons]
    by_cases hc : c ∈ substitutionClass
    · rw [leetAll_of_mem hc]
      have h2 : (isLowerAlpha c && !(decide (c ∈ substitutionClass))) = false := by
        simp [hc]
      rw [h2]
      simpa using ih
    · rw [leetAll_of_not_mem hc]
      have h2 : (isLowerAlpha c && !(decide (c ∈ substitutionClass))) = isLowerAlpha c := by
        simp [hc]
      rw [h2]
      cases hla : isLowerAlpha c <;> simpa [hla] using ih

/-- C1: the claim asserts `detected` is true exactly when the original
hostname has a digit and the forward-remap leet normalizations agree.  On the
hostnames `1.com` and `a.com` the code reports `detected = true` while the
forward-remap normalizations (`lcom` vs `acom`) differ, so the claim is
false. -/
theorem detectTyposquatting_refutes_forward_remap_claim :
    (detectTyposquatting ['1', '.', 'c', 'o', 'm'] ['a', '.', 'c', 'o', 'm']).detected = true ∧
      claimC1Detected ['1', '.', 'c', 'o', 'm'] ['a', '.', 'c', 'o', 'm'] = false := by
  constructor <;> decide

/-- C1 (amended): `detected` is true exactly when the original hostname
contains at least one digit and the two hostnames, lowercased, agree after
deleting every substitution-table character (0, o, 1, l, i, 3, e, 5, s, 4, a,
7, t, 8, b) and every non-alphabetic character; the sequential bidirectional
replacement the code performs collapses to exactly that deletion. -/
theorem detectTyposquatting_detected_iff (original target : List Char) :
    (detectTyposquatting original target).detected =
      (original.any isDigitChar &&
        decide (deleteClassNormalize original = deleteClassNormalize target)) := by
  simp [detectTyposquatting, normalizeForComparison_eq_deleteClass]

/-! ## Domain similarity (live-analyzer, calculateSimilarity)

The source fills a `(len1+1) × (len2+1)` matrix with
`matrix[i][0] = i`, `matrix[0][j] = j` and
`matrix[i][j] = min(matrix[i-1][j] + 1, matrix[i][j-1] + 1, matrix[i-1][j-1] + cost)`
where `cost` is `0` when `str1[i-1] === str2[j-1]` and `1` otherwise, then
returns `maxLen === 0 ? 1 : 1 - matrix[len1][len2] / maxLen`. -/

/-- Entry `matrix[i][j]` of the dynamic-programming matrix built by
`calculateSimilarity`. -/
def levMatrix (str1 str2 : List Char) : Nat → Nat → Nat
  | 0, j => j
  | i + 1, 0 => i + 1
  | i + 1, j + 1 =>
    let cost : Nat := if str1.get? i = str2.get? j then 0 else 1
    min (levMatrix str1 str2 i (j + 1) + 1)
      (min (levMatrix str1 str2 (i + 1) j + 1) (levMatrix str1 str2 i j + cost))

/-- `calculateSimilarity(str1, str2)`; the single floating-point division of
the source is modelled exactly over the rationals. -/
def calculateSimilarity (str1 str2 : List Char) : ℚ :=
  let distance := levMatrix str1 str2 str1.length str2.length
  let maxLen := max str1.length str2.length
  if maxLen = 0 then 1 else 1 - (distance : ℚ) / (maxLen : ℚ)

/-- The textbook Levenshtein edit distance, by recursion on the leading
characters; this independent definition is the reference against which the
matrix computed by the source is compared. -/
def levenshteinDist : List Char → List Char → Nat
  | [], ys => ys.length
  | x :: xs, [] => (x :: xs).length
  | x :: xs, y :: ys =>
    min (levenshteinDist xs (y :: ys) + 1)
      (min (levenshteinDist (x :: xs) ys + 1)
        (levenshteinDist xs ys + if x = y then 0 else 1))
termination_by xs ys => xs.length + ys.length
decreasing_by all_goals simp_arith

/-- The reference distance to the empty list is the length. -/
theorem levenshteinDist_nil_right (xs : List Char) : levenshteinDist xs [] = xs.length := by
  cases xs <;> simp [levenshteinDist]

/-- Unfolding lemma for the cons-cons case of the reference distance. -/
theorem levenshteinDist_cons_cons (x y : Char) (xs ys : List Char) :
    levenshteinDist (x :: xs) (y :: ys) =
      min (levenshteinDist xs (y :: ys) + 1)
        (min (levenshteinDist (x :: xs) ys + 1)
          (levenshteinDist xs ys + if x = y then 0 else 1)) := by
  rw [levenshteinDist]

set_option maxHeartbeats 2000000 in
/-- Rearrangement of a nested nine-way minimum, used in the trailing-character
recurrence proof below. -/
theorem minShuffle (q1 q2 q3 q4 q5 q6 q7 q8 q9 cx ca : ℕ) :
    min (min (q1 + 1) (min (q2 + 1) (q3 + cx)) + 1)
        (min (min (q4 + 1) (min (q5 + 1) (q6 + cx)) + 1)
             (min (q7 + 1) (min (q8 + 1) (q9 + cx)) + ca)) =
      min (min (q1 + 1) (min (q4 + 1) (q7 + ca)) + 1)
        (min (min (q2 + 1) (min (q5 + 1) (q8 + ca)) + 1)
             (min (q3 + 1) (min (q6 + 1) (q9 + ca)) + cx)) := by
  simp only [← Nat.add_min_add_right]
  simp [min_comm, min_assoc, min_left_comm, Nat.add_comm, Nat.add_left_comm, Nat.add_assoc]

/-- The reference distance satisfies the trailing-character recurrence as
well: this is the bridge between the prefix-indexed matrix of the source and
the leading-character recursion of the reference definition. -/
theorem levenshteinDist_append_aux (x y : Char) :
    ∀ n xs ys, xs.length + ys.length = n →
      levenshteinDist (xs ++ [x]) (ys ++ [y]) =
        min (levenshteinDist xs (ys ++ [y]) + 1)
          (min (levenshteinDist (xs ++ [x]) ys + 1)
            (levenshteinDist xs ys + if x = y then 0 else 1)) := by
  intro n
  induction n using Nat.strong_induction_on with
  | _ n ih =>
    intro xs ys hn
    match xs, ys with
    | [], [] => simp [levenshteinDist]
    | [], b :: ys =>
      have h1 : levenshteinDist [x] (ys ++ [y]) =
          min (levenshteinDist [] (ys ++ [y]) + 1)
            (min (levenshteinDist [x] ys + 1)
              (levenshteinDist [] ys + if x = y then 0 else 1)) := by
        have hlt : 0 + ys.length < n := by simp at hn; omega
        simpa using ih _ hlt [] ys rfl
      simp only [List.nil_append, List.cons_append, levenshteinDist_cons_cons, h1,
        levenshteinDist, List.length_append, List.length_cons, List.length_nil]
      by_cases hxy : x = y <;> by_cases hxb : x = b <;>
        simp only [hxy, hxb, if_true, if_false, reduceIte] <;> omega
    | a :: xs, [] =>
      have h1 : levenshteinDist (xs ++ [x]) [y] =
          min (levenshteinDist xs [y] + 1)
            (min (levenshteinDist (xs ++ [x]) [] + 1)
              (levenshteinDist xs [] + if x = y then 0 else 1)) := by
        have hlt : xs.length + 0 < n := by simp at hn; omega
        simpa using ih _ hlt xs [] rfl
      simp only [List.cons_append, List.nil_append, levenshteinDist_cons_cons, h1,
        levenshteinDist_nil_right, List.length_append, List.length_cons, List.length_nil]
      by_cases hxy : x = y <;> by_cases hay : a = y <;>
        simp only [hxy, hay, if_true, if_false, reduceIte] <;> omega
    | a :: xs, b :: ys =>
      have hxs : xs.length + (b :: ys).length < n := by simp at hn ⊢; omega
      have hys : (a :: xs).length + ys.length < n := by simp at hn ⊢; omega
      have hxys : xs.length + ys.length < n := by simp at hn ⊢; omega
      have h1 := ih _ hxs xs (b :: ys) rfl
      have h2 := ih _ hys (a :: xs) ys rfl
      have h3 := ih _ hxys xs ys rfl
      simp only [List.cons_append] at h1 h2 h3 ⊢
      rw [levenshteinDist_cons_cons a b, h1, h2, h3, levenshteinDist_cons_cons a b,
        levenshteinDist_cons_cons a b, levenshteinDist_cons_cons a b]
      exact minShuffle _ _ _ _ _ _ _ _ _ _ _

/-- Trailing-character recurrence for the reference Levenshtein distance. -/
theorem levenshteinDist_append (xs ys : List Char) (x y : Char) :
    levenshteinDist (xs ++ [x]) (ys ++ [y]) =
      min (levenshteinDist xs (ys ++ [y]) + 1)
        (min (levenshteinDist (xs ++ [x]) ys + 1)
          (levenshteinDist xs ys + if x = y then 0 else 1)) :=
  levenshteinDist_append_aux x y (xs.length + ys.length) xs ys rfl

/-- The matrix entry `matrix[i][j]` of the source is the reference Levenshtein
distance between the first `i` characters of `str1` and the first `j`
characters of `str2`. -/
theorem levMatrix_eq_levenshteinDist (str1 str2 : List Char) :
    ∀ n i j, i + j = n → i ≤ str1.length → j ≤ str2.length →
      levMatrix str1 str2 i j = levenshteinDist (str1.take i) (str2.take j) := by
  intro n
  induction n using Nat.strong_induction_on with
  | _ n ih =>
    intro i j hn hi hj
    match i, j with
    | 0, j => simp [levMatrix, levenshteinDist, List.length_take, Nat.min_eq_left hj]
    | i + 1, 0 =>
      simp [levMatrix, levenshteinDist_nil_right, List.length_take, Nat.min_eq_left hi]
    | i + 1, j + 1 =>
      have hlt1 : i < str1.length := by omega
      have hlt2 : j < str2.length := by omega
      have hc1 : str1.get? i = some str1[i] := by
        rw [List.get?_eq_getElem?, List.getElem?_eq_getElem hlt1]
      have hc2 : str2.get? j = some str2[j] := by
        rw [List.get?_eq_getElem?, List.getElem?_eq_getElem hlt2]
      have ht1 : str1.take (i + 1) = str1.take i ++ [str1[i]] := by
        rw [List.take_succ, List.getElem?_eq_getElem hlt1]; rfl
      have ht2 : str2.take (j + 1) = str2.take j ++ [str2[j]] := by
        rw [List.take_succ, List.getElem?_eq_getElem hlt2]; rfl
      have e1 := ih (i + (j + 1)) (by omega) i (j + 1) rfl (by omega) hj
      have e2 := ih ((i + 1) + j) (by omega) (i + 1) j rfl hi (by omega)
      have e3 := ih (i + j) (by omega) i j rfl (by omega) (by omega)
      rw [levMatrix]
      simp only [hc1, hc2]
      rw [e1, e2, e3, ht1, ht2, levenshteinDist_append]
      by_cases h : str1[i] = str2[j] <;> simp [h]

/-- The reference Levenshtein distance is symmetric. -/
theorem levenshteinDist_comm_aux :
    ∀ n xs ys, xs.length + ys.length = n →
      levenshteinDist (xs : List Char) ys = levenshteinDist ys xs := by
  intro n
  induction n using Nat.strong_induction_on with
  | _ n ih =>
    intro xs ys hn
    match xs, ys with
    | [], [] => rfl
    | [], b :: ys => simp [levenshteinDist, levenshteinDist_nil_right]
    | a :: xs, [] => simp [levenshteinDist, levenshteinDist_nil_right]
    | a :: xs, b :: ys =>
      have h1 : xs.length + (b :: ys).length < n := by simp at hn ⊢; omega
      have h2 : (a :: xs).length + ys.length < n := by simp at hn ⊢; omega
      have h3 : xs.length + ys.length < n := by simp at hn ⊢; omega
      rw [levenshteinDist_cons_cons, levenshteinDist_cons_cons,
        ih _ h1 xs (b :: ys) rfl, ih _ h2 (a :: xs) ys rfl, ih _ h3 xs ys rfl]
      have hc : (if a = b then 0 else 1 : ℕ) = (if b = a then 0 else 1) := by
        by_cases h : a = b <;> simp [h, Ne.symm, eq_comm]
      rw [hc, min_left_comm]

/-- Symmetry of the reference Levenshtein distance. -/
theorem levenshteinDist_comm (xs ys : List Char) :
    levenshteinDist xs ys = levenshteinDist ys xs :=
  levenshteinDist_comm_aux (xs.length + ys.length) xs ys rfl

/-- The reference distance of a list to itself is zero. -/
theorem levenshteinDist_self (xs : List Char) : levenshteinDist xs xs = 0 := by
  induction xs with
  | nil => simp [levenshteinDist]
  | cons x xs ih => rw [levenshteinDist_cons_cons, if_pos rfl, ih]; omega

/-- The reference distance is at most the length of the longer list. -/
theorem levenshteinDist_le_max :
    ∀ n xs ys, xs.length + ys.length = n →
      levenshteinDist (xs : List Char) ys ≤ max xs.length ys.length := by
  intro n
  induction n using Nat.strong_induction_on with
  | _ n ih =>
    intro xs ys hn
    match xs, ys with
    | [], ys => simp [levenshteinDist]
    | a :: xs, [] => simp [levenshteinDist_nil_right]
    | a :: xs, b :: ys =>
      have h3 : xs.length + ys.length < n := by simp at hn ⊢; omega
      have hb := ih _ h3 xs ys rfl
      rw [levenshteinDist_cons_cons]
      have hcost : (if a = b then 0 else 1 : ℕ) ≤ 1 := by split <;> omega
      have : levenshteinDist xs ys + (if a = b then 0 else 1) ≤
          max xs.length ys.length + 1 := by omega
      calc min (levenshteinDist xs (b :: ys) + 1)
            (min (levenshteinDist (a :: xs) ys + 1)
              (levenshteinDist xs ys + if a = b then 0 else 1)) ≤
          levenshteinDist xs ys + (if a = b then 0 else 1) :=
            le_trans (min_le_right _ _) (min_le_right _ _)
        _ ≤ max xs.length ys.length + 1 := this
        _ ≤ max (a :: xs).length (b :: ys).length := by simp; omega

/-- The distance computed by the source matrix is the reference distance. -/
theorem calculateSimilarity_distance (a b : List Char) :
    levMatrix a b a.length b.length = levenshteinDist a b := by
  have h := levMatrix_eq_levenshteinDist a b (a.length + b.length) a.length b.length rfl
    le_rfl le_rfl
  simpa [List.take_length] using h

/-- C6: `calculateSimilarity` equals one minus the Levenshtein distance
divided by the longer length (and one when both strings are empty); it is
symmetric, equals one on identical strings, and always lies in `[0, 1]`. -/
theorem calculateSimilarity_spec (a b : List Char) :
    calculateSimilarity a b =
        (if max a.length b.length = 0 then 1
          else 1 - (levenshteinDist a b : ℚ) / ((max a.length b.length : ℕ) : ℚ)) ∧
      calculateSimilarity a b = calculateSimilarity b a ∧
      calculateSimilarity a a = 1 ∧
      0 ≤ calculateSimilarity a b ∧ calculateSimilarity a b ≤ 1 := by
  have hform : ∀ u v : List Char, calculateSimilarity u v =
      (if max u.length v.length = 0 then 1
        else 1 - (levenshteinDist u v : ℚ) / ((max u.length v.length : ℕ) : ℚ)) := by
    intro u v
    simp only [calculateSimilarity, calculateSimilarity_distance]
  refine ⟨hform a b, ?_, ?_, ?_⟩
  · rw [hform a b, hform b a, levenshteinDist_comm, Nat.max_comm]
  · rw [hform a a, levenshteinDist_self]
    rcases Nat.eq_zero_or_pos a.length with h | h
    · simp [h]
    · rw [if_neg (by omega)]
      simp
  · rw [hform a b]
    rcases Nat.eq_zero_or_pos (max a.length b.length) with h | h
    · simp [h]
    · rw [if_neg (by omega)]
      have hd : levenshteinDist a b ≤ max a.length b.length :=
        levenshteinDist_le_max (a.length + b.length) a b rfl
      have hmpos : (0 : ℚ) < ((max a.length b.length : ℕ) : ℚ) := by exact_mod_cast h
      have hdiv0 : (0 : ℚ) ≤ (levenshteinDist a b : ℚ) / ((max a.length b.length : ℕ) : ℚ) :=
        div_nonneg (by positivity) (le_of_lt hmpos)
      have hdiv1 : (levenshteinDist a b : ℚ) / ((max a.length b.length : ℕ) : ℚ) ≤ 1 := by
        rw [div_le_one hmpos]
        exact_mod_cast hd
      constructor <;> linarith

/-! ## Download risk scoring (sandbox-session, analyzeFileRisk) -/

/-- The dangerous-extension set `DANGEROUS_EXTENSIONS`. -/
def dangerousExtensions : List (List Char) :=
  [".exe".data, ".msi".data, ".bat".data, ".cmd".data, ".com".data, ".scr".data, ".pif".data,
   ".app".data, ".dmg".data, ".pkg".data,
   ".sh".data, ".bash".data, ".zsh".data,
   ".jar".data, ".jnlp".data,
   ".ps1".data, ".psm1".data, ".psd1".data,
   ".vbs".data, ".vbe".data, ".js".data, ".jse".data, ".ws".data, ".wsf".data, ".wsc".data,
   ".hta".data, ".cpl".data, ".msc".data,
   ".dll".data, ".sys".data, ".drv".data,
   ".iso".data, ".img".data]

/-- The document-extension alternatives of `DOUBLE_EXTENSION_PATTERN`. -/
def doubleExtDocs : List (List Char) :=
  ["pdf".data, "doc".data, "docx".data, "xls".data, "xlsx".data, "jpg".data, "png".data,
   "txt".data]

/-- The executable-extension alternatives of `DOUBLE_EXTENSION_PATTERN`. -/
def doubleExtExecs : List (List Char) :=
  ["exe".data, "scr".data, "bat".data, "cmd".data, "js".data, "vbs".data]

/-- `DOUBLE_EXTENSION_PATTERN.test(lowerFilename)`: the anchored regular
expression matches exactly when the lowercased filename ends with a dot, a
document extension, a dot and an executable extension. -/
def matchesDoubleExtension (lowerFilename : List Char) : Bool :=
  doubleExtDocs.any fun d => doubleExtExecs.any fun e =>
    decide (('.' :: d ++ '.' :: e) <:+ lowerFilename)

/-- JavaScript `split('.')`: cut the character list at every dot. -/
def splitOnDot : List Char → List (List Char)
  | [] => [[]]
  | c :: rest =>
    if c = '.' then [] :: splitOnDot rest
    else
      match splitOnDot rest with
      | r :: rs => (c :: r) :: rs
      | [] => [[c]]

/-- `'.' + lowerFilename.split('.').pop()`. -/
def finalExtension (lowerFilename : List Char) : List Char :=
  '.' :: (splitOnDot lowerFilename).getLastD []

/-- The extension-to-content-type table of `getExpectedContentType`. -/
def typeMap : List (List Char × List Char) :=
  [(".pdf".data, "application/pdf".data),
   (".doc".data, "application/msword".data),
   (".docx".data, "application/vnd.openxmlformats".data),
   (".xls".data, "application/vnd.ms-excel".data),
   (".xlsx".data, "application/vnd.openxmlformats".data),
   (".jpg".data, "image/jpeg".data),
   (".jpeg".data, "image/jpeg".data),
   (".png".data, "image/png".data),
   (".gif".data, "image/gif".data),
   (".txt".data, "text/plain".data),
   (".zip".data, "application/zip".data)]

/-- `getExpectedContentType(extension)`: table lookup, `null` when absent. -/
def getExpectedContentType (extension : List Char) : Option (List Char) :=
  (typeMap.find? fun p => decide (p.1 = extension)).map Prod.snd

/-- The content-type check of `analyzeFileRisk`: it fires only when a content
type was declared (the sentinel `unknown` means none) and the table knows the
expected type for the extension; `includes` is substring containment. -/
def contentTypeMismatch (extension contentType : List Char) : Bool :=
  if contentType = "unknown".data then false
  else
    match getExpectedContentType extension with
    | some expected => !(decide (expected <:+: contentType))
    | none => false

/-- Result record of `analyzeFileRisk`; threats are recorded as
(type, severity) pairs. -/
structure FileRisk where
  riskScore : Nat
  riskLevel : List Char
  threats : List (List Char × List Char)
  blocked : Bool
deriving Repr, DecidableEq

/-- `analyzeFileRisk(filename, contentType)`; the score accumulates exactly
as in the source (base 30, then the three conditional additions in order),
the level is decided on the uncapped score and the returned score is capped
at 100. -/
def analyzeFileRisk (filename contentType : List Char) : FileRisk :=
  let lowerFilename := filename.map Char.toLower
  let extension := finalExtension lowerFilename
  let doubleExt := matchesDoubleExtension lowerFilename
  let dangerous := dangerousExtensions.contains extension
  let mismatch := contentTypeMismatch extension contentType
  let s0 : Nat := 30
  let s1 : Nat := if doubleExt then s0 + 50 else s0
  let s2 : Nat := if dangerous then s1 + 30 else s1
  let s3 : Nat := if mismatch then s2 + 20 else s2
  let threats :=
    (if doubleExt then [("double extension".data, "critical".data)] else []) ++
      (if dangerous then [("executable file".data, "high".data)] else []) ++
      (if mismatch then [("mime type mismatch".data, "medium".data)] else [])
  let riskLevel :=
    if 70 ≤ s3 then "danger".data
    else if 40 ≤ s3 then "warning".data
    else "safe".data
  { riskScore := min s3 100
    riskLevel := riskLevel
    threats := threats
    blocked := true }

/-- C5: the returned score is `min(100, 30 + 50·[double extension] +
30·[dangerous final extension] + 20·[content-type mismatch])`, the level is
`danger` at a capped score of at least 70, `warning` at at least 40 and
`safe` below, the event is always blocked; `invoice.pdf.exe` scores at least
80 with level `danger`, and `report.pdf` with matching content type scores
exactly 30 with level `safe`. -/
theorem analyzeFileRisk_spec (filename contentType : List Char) :
    (analyzeFileRisk filename contentType).riskScore =
        min 100 (30 + (if matchesDoubleExtension (filename.map Char.toLower) then 50 else 0) +
          (if dangerousExtensions.contains (finalExtension (filename.map Char.toLower)) then 30
            else 0) +
          (if contentTypeMismatch (finalExtension (filename.map Char.toLower)) contentType then 20
            else 0)) ∧
      (analyzeFileRisk filename contentType).riskLevel =
        (if 70 ≤ (analyzeFileRisk filename contentType).riskScore then "danger".data
          else if 40 ≤ (analyzeFileRisk filename contentType).riskScore then "warning".data
          else "safe".data) ∧
      (analyzeFileRisk filename contentType).blocked = true ∧
      80 ≤ (analyzeFileRisk "invoice.pdf.exe".data "unknown".data).riskScore ∧
      (analyzeFileRisk "invoice.pdf.exe".data "unknown".data).riskLevel = "danger".data ∧
      (analyzeFileRisk "report.pdf".data "application/pdf".data).riskScore = 30 ∧
      (analyzeFileRisk "report.pdf".data "application/pdf".data).riskLevel = "safe".data := by
  refine ⟨?_, ?_, ?_, by decide, by decide, by decide, by decide⟩ <;>
    cases hd : matchesDoubleExtension (filename.map Char.toLower) <;>
      by_cases hg : finalExtension (filename.map Char.toLower) ∈ dangerousExtensions <;>
        cases hm : contentTypeMismatch (finalExtension (filename.map Char.toLower)) contentType <;>
          simp [analyzeFileRisk, hd, hg, hm]

/-! ## Sandbox session state (sandbox-session, SandboxSession)

A session owns optional handles (browser, page, CDP client, watchdog timer)
plus its redirect counter, activity flag and current URL.  Each operation
returns the new state together with the list of externally visible actions it
performs, in order. -/

/-- The mutable per-session fields touched by `stop`, `cleanup` and the
response-level redirect tracker.  `Option` models the nullable handle
fields. -/
structure SessionState where
  browser : Option Nat
  page : Option Nat
  cdpClient : Option Nat
  timeoutId : Option Nat
  redirectCount : Nat
  isActive : Bool
  currentUrl : Option (List Char)
deriving Repr, DecidableEq

/-- Externally visible actions a session operation can perform. -/
inductive SessionAction where
  | statusMsg (state message : List Char)
  | cdpStopScreencast
  | browserClose
  | onCloseHook
deriving Repr, DecidableEq

/-- `stopScreencast()`: sends the CDP stop command only when a CDP client
exists and the session is active; failures are swallowed and no field
changes. -/
def stopScreencast (s : SessionState) : List SessionAction :=
  if s.cdpClient.isSome && s.isActive then [SessionAction.cdpStopScreencast] else []

/-- `stop()`: stop the screencast, clear the activity flag, notify the
client. -/
def stop (s : SessionState) : SessionState × List SessionAction :=
  ({ s with isActive := false },
    stopScreencast s ++ [SessionAction.statusMsg "connected".data "Screencast 중지됨".data])

/-- `cleanup()`: clear the watchdog, stop the screencast and null the CDP
client if present, close and null the browser if present, null the page and
URL, clear the activity flag, then invoke the registered close hook. -/
def cleanup (s : SessionState) : SessionState × List SessionAction :=
  ({ browser := none, page := none, cdpClient := none, timeoutId := none,
     redirectCount := s.redirectCount, isActive := false, currentUrl := none },
    (if s.cdpClient.isSome then [SessionAction.cdpStopScreencast] else []) ++
      (if s.browser.isSome then [SessionAction.browserClose] else []) ++
      [SessionAction.onCloseHook])

/-- The terminal status text of the redirect tracker. -/
def redirectExceededMsg : List Char := "리다이렉트 횟수가 초과되었습니다.".data

/-- The `response` handler installed by `initialize`: every 3xx response
increments `redirectCount`; once the counter exceeds `MAX_REDIRECTS` (5) an
error status is sent and `stop()` is invoked. -/
def onResponse (s : SessionState) (status : Nat) : SessionState × List SessionAction :=
  if 300 ≤ status ∧ status < 400 then
    let s1 := { s with redirectCount := s.redirectCount + 1 }
    if 5 < s1.redirectCount then
      let r := stop s1
      (r.1, SessionAction.statusMsg "error".data redirectExceededMsg :: r.2)
    else (s1, [])
  else (s, [])

/-- Feed a list of response status codes through the response handler,
accumulating the emitted actions. -/
def runResponses (s : SessionState) (statuses : List Nat) :
    SessionState × List SessionAction :=
  statuses.foldl (fun acc st => let r := onResponse acc.1 st; (r.1, acc.2 ++ r.2)) (s, [])

/-- A session as it looks right after a successful `initialize`: all handles
held, watchdog armed, no redirects yet. -/
def activeSession : SessionState :=
  { browser := some 0, page := some 0, cdpClient := some 0, timeoutId := some 0,
    redirectCount := 0, isActive := true, currentUrl := some "https://example.com".data }

/-- C3: the claim asserts that once `redirectCount` exceeds 5 the session is
cleaned up and its browser handle released.  Feeding six 3xx responses to a
fresh active session emits the terminal error status, but the browser handle
is still held, no browser-close happens and the close hook never runs: the
handler calls `stop()`, not `cleanup()`. -/
theorem redirectLimit_releases_no_browser :
    (runResponses activeSession [301, 301, 301, 301, 301, 301]).1.browser = some 0 ∧
      SessionAction.statusMsg "error".data redirectExceededMsg ∈
        (runResponses activeSession [301, 301, 301, 301, 301, 301]).2 ∧
      SessionAction.browserClose ∉ (runResponses activeSession [301, 301, 301, 301, 301, 301]).2 ∧
      SessionAction.onCloseHook ∉ (runResponses activeSession [301, 301, 301, 301, 301, 301]).2 := by
  decide

/-- C3 (amended): every 3xx response increments `redirectCount` by exactly
one and non-3xx responses leave the session unchanged; as soon as the counter
exceeds 5 the session emits the terminal error status and invokes `stop()`,
which halts the screencast and clears the activity flag, while the browser,
page, CDP client and watchdog fields are left untouched and no browser
release or close-hook invocation happens. -/
theorem onResponse_spec (s : SessionState) (status : Nat) :
    (300 ≤ status ∧ status < 400 →
      (onResponse s status).1.redirectCount = s.redirectCount + 1 ∧
        (onResponse s status).1.browser = s.browser ∧
        (onResponse s status).1.page = s.page ∧
        (onResponse s status).1.cdpClient = s.cdpClient ∧
        (onResponse s status).1.timeoutId = s.timeoutId ∧
        SessionAction.browserClose ∉ (onResponse s status).2 ∧
        SessionAction.onCloseHook ∉ (onResponse s status).2 ∧
        (5 < s.redirectCount + 1 →
          SessionAction.statusMsg "error".data redirectExceededMsg ∈ (onResponse s status).2 ∧
            (onResponse s status).1.isActive = false)) ∧
      (¬(300 ≤ status ∧ status < 400) → onResponse s status = (s, [])) := by
  constructor
  · intro h3xx
    simp only [onResponse, if_pos h3xx]
    by_cases hc : 5 < s.redirectCount + 1
    · simp [hc, stop, stopScreencast]
    · simp [hc]
  · intro h
    simp [onResponse, h]

/-- Witness for `onResponse_spec` at a concrete session and response. -/
theorem onResponse_spec_witness :
    (onResponse { activeSession with redirectCount := 5 } 301).1.redirectCount = 6 ∧
      SessionAction.statusMsg "error".data redirectExceededMsg ∈
        (onResponse { activeSession with redirectCount := 5 } 301).2 ∧
      onResponse activeSession 200 = (activeSession, []) := by
  have h := onResponse_spec { activeSession with redirectCount := 5 } 301
  have h1 := h.1 (by omega)
  have h2 := (onResponse_spec activeSession 200).2 (by omega)
  exact ⟨h1.1, (h1.2.2.2.2.2.2.2 (by decide)).1, h2⟩

/-- C7: cleanup is idempotent.  The second invocation performs neither a
screencast stop nor a browser close, the post-state equals the state after
the first call, and after any first call the handles are nulled, the session
is inactive and the watchdog is cleared; each release action happens at most
once across both calls. -/
theorem cleanup_idempotent (s : SessionState) :
    (cleanup (cleanup s).1).1 = (cleanup s).1 ∧
      SessionAction.cdpStopScreencast ∉ (cleanup (cleanup s).1).2 ∧
      SessionAction.browserClose ∉ (cleanup (cleanup s).1).2 ∧
      (cleanup s).1.browser = none ∧
      (cleanup s).1.page = none ∧
      (cleanup s).1.cdpClient = none ∧
      (cleanup s).1.isActive = false ∧
      (cleanup s).1.timeoutId = none ∧
      (cleanup s).2.count SessionAction.cdpStopScreencast ≤ 1 ∧
      (cleanup s).2.count SessionAction.browserClose ≤ 1 := by
  cases hb : s.browser <;> cases hc : s.cdpClient <;>
    simp [cleanup, hb, hc, List.count_cons, List.count_nil]

/-! ## Session manager (sandbox-session, SessionManager)

The registry is the key set of the `sessions` map; sessions are identified by
their ids.  JavaScript executes `createSession` synchronously, so the
capacity check and the insertion form one atomic step, which the model
expresses by making `createSession` a single state transition. -/

/-- The manager state: registered session ids and the capacity bound. -/
structure SessionManagerState where
  sessions : List Nat
  maxSessions : Nat
deriving Repr, DecidableEq

/-- `new SessionManager({maxSessions})`: the source initializes the field as
`options.maxSessions || 1`, so a configured value of zero silently becomes
one. -/
def mkSessionManager (maxSessions : Nat) : SessionManagerState :=
  { sessions := [], maxSessions := if maxSessions = 0 then 1 else maxSessions }

/-- `createSession(ws, options)`: refuse (returning `null`, registry
unchanged) when the registry has reached `maxSessions`; otherwise register a
session under a fresh id and return it.  `Map.set` semantics keep ids
unique. -/
def createSession (m : SessionManagerState) (newId : Nat) :
    SessionManagerState × Option Nat :=
  if m.maxSessions ≤ m.sessions.length then (m, none)
  else
    ({ m with sessions := if newId ∈ m.sessions then m.sessions else newId :: m.sessions },
      some newId)

/-- `removeSession(id)`: clean up and drop the session when present. -/
def removeSession (m : SessionManagerState) (id : Nat) : SessionManagerState × Bool :=
  if id ∈ m.sessions then ({ m with sessions := m.sessions.erase id }, true) else (m, false)

/-- `cleanupAll()`: clean up every session and clear the registry. -/
def cleanupAll (m : SessionManagerState) : SessionManagerState :=
  { m with sessions := [] }

/-- The close hook registered on every created session: on session cleanup
the session deletes itself from the registry. -/
def sessionClosed (m : SessionManagerState) (id : Nat) : SessionManagerState :=
  { m with sessions := m.sessions.erase id }

/-- `hasCapacity()`. -/
def hasCapacity (m : SessionManagerState) : Bool :=
  m.sessions.length < m.maxSessions

/-- The registry-mutating operations of the manager. -/
inductive ManagerOp where
  | create (newId : Nat)
  | remove (id : Nat)
  | cleanupAllOp
  | sessionCleanup (id : Nat)
deriving Repr, DecidableEq

/-- Apply one operation to the registry. -/
def applyOp (m : SessionManagerState) : ManagerOp → SessionManagerState
  | ManagerOp.create id => (createSession m id).1
  | ManagerOp.remove id => (removeSession m id).1
  | ManagerOp.cleanupAllOp => cleanupAll m
  | ManagerOp.sessionCleanup id => sessionClosed m id

/-- Run a sequence of operations. -/
def runOps (m : SessionManagerState) (ops : List ManagerOp) : SessionManagerState :=
  ops.foldl applyOp m

/-- Every operation preserves the capacity bound and the capacity field. -/
theorem applyOp_preserves (m : SessionManagerState) (op : ManagerOp)
    (h : m.sessions.length ≤ m.maxSessions) :
    (applyOp m op).sessions.length ≤ (applyOp m op).maxSessions ∧
      (applyOp m op).maxSessions = m.maxSessions := by
  cases op with
  | create id =>
    simp only [applyOp, createSession]
    split
    · exact ⟨h, rfl⟩
    · rename_i hlt
      constructor
      · by_cases hmem : id ∈ m.sessions <;> simp [hmem] <;> omega
      · rfl
  | remove id =>
    simp only [applyOp, removeSession]
    split
    · refine ⟨le_trans ?_ h, rfl⟩
      exact le_trans (List.length_erase_le _ _) le_rfl
    · exact ⟨h, rfl⟩
  | cleanupAllOp => exact ⟨by simp [applyOp, cleanupAll], rfl⟩
  | sessionCleanup id =>
    refine ⟨le_trans ?_ h, rfl⟩
    exact List.length_erase_le _ _

/-- The capacity bound is an invariant of every operation sequence. -/
theorem runOps_invariant (m : SessionManagerState) (ops : List ManagerOp)
    (h : m.sessions.length ≤ m.maxSessions) :
    (runOps m ops).sessions.length ≤ (runOps m ops).maxSessions ∧
      (runOps m ops).maxSessions = m.maxSessions := by
  induction ops generalizing m with
  | nil => exact ⟨h, rfl⟩
  | cons op ops ih =>
    have hstep := applyOp_preserves m op h
    have hrec := ih (applyOp m op) hstep.1
    rw [runOps, List.foldl_cons]
    rw [runOps] at hrec
    exact ⟨hrec.1, hrec.2.trans hstep.2⟩

/-- C2: the claim quantifies over every configured `maxSessions = N`.  The
constructor maps a configured value of zero to one, so a manager configured
with `maxSessions = 0` accepts its first `createSession` and then holds one
session, violating `count ≤ 0` and admitting the (0+1)-th concurrent
attempt. -/
theorem sessionManager_zero_config_counterexample :
    ((createSession (mkSessionManager 0) 7).2).isSome = true ∧
      (createSession (mkSessionManager 0) 7).1.sessions.length = 1 := by decide

/-- C2 (amended): for every `N ≥ 1`, a manager configured with
`maxSessions = N` keeps `count(sessions) ≤ N` after every sequence of
create, remove, cleanup-all and session-cleanup operations; the capacity
check and insertion are one atomic transition, and whenever the registry
already holds `N` sessions the next `createSession` refuses (returns `null`)
and leaves the registry unchanged. -/
theorem sessionManager_capacity_invariant (n : Nat) (hn : 1 ≤ n) (ops : List ManagerOp)
    (newId : Nat) :
    (runOps (mkSessionManager n) ops).sessions.length ≤ n ∧
      ((runOps (mkSessionManager n) ops).sessions.length = n →
        createSession (runOps (mkSessionManager n) ops) newId =
          ((runOps (mkSessionManager n) ops), none)) := by
  have hmk : (mkSessionManager n).maxSessions = n := by
    simp [mkSessionManager]
    omega
  have h0 : (mkSessionManager n).sessions.length ≤ (mkSessionManager n).maxSessions := by
    simp [mkSessionManager]
  have hinv := runOps_invariant (mkSessionManager n) ops h0
  constructor
  · calc (runOps (mkSessionManager n) ops).sessions.length ≤
        (runOps (mkSessionManager n) ops).maxSessions := hinv.1
      _ = n := by rw [hinv.2, hmk]
  · intro hfull
    have : (runOps (mkSessionManager n) ops).maxSessions ≤
        (runOps (mkSessionManager n) ops).sessions.length := by
      rw [hinv.2, hmk, hfull]
    simp [createSession, this]

/-- Witness for `sessionManager_capacity_invariant`: capacity one, one
successful admission, then the second concurrent attempt is refused. -/
theorem sessionManager_capacity_invariant_witness :
    (runOps (mkSessionManager 1) [ManagerOp.create 0]).sessions.length ≤ 1 ∧
      createSession (runOps (mkSessionManager 1) [ManagerOp.create 0]) 1 =
        ((runOps (mkSessionManager 1) [ManagerOp.create 0]), none) := by
  have h := sessionManager_capacity_invariant 1 (by decide) [ManagerOp.create 0] 1
  exact ⟨h.1, h.2 (by decide)⟩

/-! ## The /reset-sessions endpoint (sandbox-server) -/

/-- The method names the `SessionManager` class defines. -/
def sessionManagerMethods : List (List Char) :=
  ["constructor".data, "createSession".data, "getSession".data, "removeSession".data,
   "cleanupAll".data, "getActiveCount".data, "getAllSessionInfo".data, "hasCapacity".data]

/-- Outcome of the `/reset-sessions` handler: HTTP status, the `success`
field of the JSON body, and the registry afterwards. -/
structure ResetSessionsResult where
  statusCode : Nat
  success : Bool
  registry : SessionManagerState
deriving Repr, DecidableEq

/-- The POST `/reset-sessions` handler.  It awaits
`sessionManager.clearAllSessions()`: when the class defines the method the
success branch answers 200 and the registry is cleared; when it does not,
property lookup yields `undefined`, the call raises a TypeError, and the
catch branch answers 500 with `success:false`, leaving the registry
untouched. -/
def resetSessionsHandler (m : SessionManagerState) : ResetSessionsResult :=
  if "clearAllSessions".data ∈ sessionManagerMethods then
    { statusCode := 200, success := true, registry := cleanupAll m }
  else
    { statusCode := 500, success := false, registry := m }

/-- C9: `clearAllSessions` is not among the methods the class defines (it
defines `cleanupAll` instead), so every POST to `/reset-sessions` takes the
error branch, answers 500 with `success:false`, and cleans up nothing. -/
theorem resetSessions_always_500 (m : SessionManagerState) :
    "clearAllSessions".data ∉ sessionManagerMethods ∧
      (resetSessionsHandler m).statusCode = 500 ∧
      (resetSessionsHandler m).success = false ∧
      (resetSessionsHandler m).registry = m := by
  have h : "clearAllSessions".data ∉ sessionManagerMethods := by decide
  exact ⟨h, by simp [resetSessionsHandler, h], by simp [resetSessionsHandler, h],
    by simp [resetSessionsHandler, h]⟩

/-! ## Frame effect of stop versus cleanup (C10) -/

/-- The registry reacts to a list of session actions: only the close hook
mutates it, by removing the session. -/
def applyHooks (m : SessionManagerState) (sid : Nat) (acts : List SessionAction) :
    SessionManagerState :=
  if SessionAction.onCloseHook ∈ acts then sessionClosed m sid else m

/-- C10: `stop()` changes only the streaming state: the activity flag drops,
the screencast-stop command is sent exactly when a CDP client exists and the
session was active, and the browser, page, CDP client, watchdog and the
registry entry are all untouched; the browser is released only by a later
`cleanup()`, which closes it exactly when it is still held and removes the
registry entry via the close hook. -/
theorem stop_frame_effect (s : SessionState) (m : SessionManagerState) (sid : Nat) :
    (stop s).1 = { s with isActive := false } ∧
      (SessionAction.cdpStopScreencast ∈ (stop s).2 ↔ s.cdpClient.isSome ∧ s.isActive) ∧
      SessionAction.browserClose ∉ (stop s).2 ∧
      SessionAction.onCloseHook ∉ (stop s).2 ∧
      applyHooks m sid (stop s).2 = m ∧
      (cleanup (stop s).1).1.browser = none ∧
      (SessionAction.browserClose ∈ (cleanup (stop s).1).2 ↔ s.browser.isSome) ∧
      applyHooks m sid (cleanup (stop s).1).2 = sessionClosed m sid := by
  refine ⟨rfl, ?_, ?_, ?_, ?_, rfl, ?_, ?_⟩
  · simp [stop, stopScreencast]
  · simp [stop, stopScreencast]
  · simp [stop, stopScreencast]
  · simp [applyHooks, stop, stopScreencast]
  · cases hb : s.browser <;> simp [stop, cleanup, hb]
  · simp [applyHooks, stop, cleanup]

/-! ## Wire messages and the session-id field (C8)

Each message builder of the session and of the background analyzer sends one
JSON object; the key lists below are the keys of those object literals, in
source order. -/

/-- Keys of the object sent by `sendStatus`. -/
def statusMessageKeys : List (List Char) :=
  ["type".data, "state".data, "message".data, "sessionId".data]

/-- Keys of the object sent by `sendFrame`. -/
def frameMessageKeys : List (List Char) :=
  ["type".data, "data".data]

/-- Keys of the object sent by `sendUrlChange`. -/
def urlChangeMessageKeys : List (List Char) :=
  ["type".data, "url".data, "sessionId".data]

/-- Keys of the `analysis_started` message of `analyzeInBackground`. -/
def analysisStartedKeys : List (List Char) :=
  ["type".data, "analysisId".data, "url".data, "originalUrl".data, "redirected".data,
   "timestamp".data]

/-- Keys of the two-field `analysis_progress` messages; the `collected` stage
additionally carries a `preview`. -/
def analysisProgressKeys : List (List Char) :=
  ["type".data, "analysisId".data, "stage".data, "message".data, "preview".data]

/-- Keys that can occur in the object returned by `analyzeWithAIMultimodal`
(over all of its success, missing-key, timeout and error branches), spread
into the `analysis_complete` message. -/
def aiResultKeys : List (List Char) :=
  ["enabled".data, "model".data, "reason".data, "error".data, "riskScore".data,
   "riskLevel".data, "summary".data, "findings".data, "codeAnalysis".data,
   "visualAnalysis".data, "recommendations".data, "simpleExplanation".data,
   "confidence".data, "redirectAnalysis".data, "usage".data, "rawResponse".data]

/-- Keys of the `analysis_complete` message: its own literals plus the spread
AI result. -/
def analysisCompleteKeys : List (List Char) :=
  ["type".data, "analysisId".data, "url".data, "originalUrl".data, "redirected".data,
   "title".data, "timestamp".data] ++ aiResultKeys

/-- Keys of the `analysis_error` message literal in the catch block. -/
def analysisErrorKeys : List (List Char) :=
  ["type".data, "analysisId".data, "url".data, "error".data, "timestamp".data]

/-- C8: the claim asserts every frame, status, navigation and analysis event
carries the session id; the `frame` message carries only `type` and `data`,
so the claim is false. -/
theorem frameMessage_lacks_sessionId :
    frameMessageKeys.contains "sessionId".data = false := by decide

/-- C8 (amended): the status and navigation (urlChange) events carry the
session id; the frame event and the four analysis events do not (the
analysis events carry their own `analysisId` instead). -/
theorem sessionId_field_coverage :
    "sessionId".data ∈ statusMessageKeys ∧
      "sessionId".data ∈ urlChangeMessageKeys ∧
      "sessionId".data ∉ frameMessageKeys ∧
      "sessionId".data ∉ analysisStartedKeys ∧
      "sessionId".data ∉ analysisProgressKeys ∧
      "sessionId".data ∉ analysisCompleteKeys ∧
      "sessionId".data ∉ analysisErrorKeys ∧
      "analysisId".data ∈ analysisStartedKeys := by decide

/-! ## Background analysis event trace (live-analyzer, analyzeInBackground)

`analyzeInBackground` sends `analysis_started`, then the progress stages,
then a terminal message.  The only await in its try block that can reject is
`await collectAnalysisData(page)` (its `page.content()` call is unguarded;
every other collector and the whole AI call catch their own failures), so the
trace is determined by whether collection succeeds.  The catch block builds
an object literal containing the bare identifier `url`; evaluating an
identifier resolves it against the scope chain, and an unbound name raises a
ReferenceError before `sendMessage` is called. -/

/-- The events `analyzeInBackground` can send, by message type and stage. -/
inductive AnalysisEvent where
  | started
  | progress (stage : List Char)
  | complete
  | errorEvent
deriving Repr, DecidableEq

/-- Module-scope bindings of the live analyzer. -/
def liveAnalyzerModuleScope : List (List Char) :=
  ["OPENROUTER_API_URL".data, "MODEL_NAME".data, "ANALYSIS_TIMEOUT".data,
   "detectRedirect".data, "detectTyposquatting".data, "calculateSimilarity".data,
   "generateRedirectExplanation".data, "collectAnalysisData".data, "captureScreenshot".data,
   "getFormInfo".data, "getScriptInfo".data, "getMetaInfo".data, "buildRedirectSection".data,
   "buildMultimodalPrompt".data, "summarizeHtml".data, "summarizeForms".data,
   "summarizeScripts".data, "analyzeWithAIMultimodal".data, "buildMultimodalMessages".data,
   "parseAIResponse".data, "analyzeInBackground".data, "analyzePage".data,
   "determineRiskLevel".data, "generateSummary".data]

/-- The names visible in the catch block of `analyzeInBackground`: the
function parameters, its function-scoped locals, the catch parameter, and the
module scope (the consts of the try block are block-scoped to the try
block). -/
def analyzeInBackgroundScope : List (List Char) :=
  ["page".data, "sendMessage".data, "options".data, "currentUrl".data, "originalUrl".data,
   "analysisId".data, "redirectInfo".data, "error".data] ++ liveAnalyzerModuleScope

/-- Resolve an identifier against a scope: an unbound name is a
ReferenceError. -/
def resolveIdent (scope : List (List Char)) (name : List Char) : Except (List Char) Unit :=
  if name ∈ scope then Except.ok () else Except.error "ReferenceError".data

/-- The event trace of one `analyzeInBackground` invocation, abstracted over
whether data collection resolves.  The second component is the JavaScript
error the invocation itself rejects with, if any. -/
def analyzeInBackgroundTrace (collectSucceeds : Bool) :
    List AnalysisEvent × Option (List Char) :=
  let pre := [AnalysisEvent.started, AnalysisEvent.progress "collecting".data]
  if collectSucceeds then
    (pre ++ [AnalysisEvent.progress "collected".data, AnalysisEvent.progress "analyzing".data,
      AnalysisEvent.complete], none)
  else
    match resolveIdent analyzeInBackgroundScope "url".data with
    | Except.ok _ => (pre ++ [AnalysisEvent.errorEvent], none)
    | Except.error e => (pre, some e)

/-- C4: on the happy path the trace is `started`, three progress events and
exactly one terminal `complete`; but when collection fails the catch block
evaluates the unbound identifier `url` (the function only binds
`currentUrl`), so the invocation rejects with a ReferenceError after
`started` and one progress event, and no terminal event is ever sent — the
three-stage contract is broken by the code. -/
theorem analyzeInBackground_skips_terminal_on_failure :
    (analyzeInBackgroundTrace true).1 =
        [AnalysisEvent.started, AnalysisEvent.progress "collecting".data,
          AnalysisEvent.progress "collected".data, AnalysisEvent.progress "analyzing".data,
          AnalysisEvent.complete] ∧
      (analyzeInBackgroundTrace true).2 = none ∧
      "url".data ∉ analyzeInBackgroundScope ∧
      (analyzeInBackgroundTrace false).1 =
        [AnalysisEvent.started, AnalysisEvent.progress "collecting".data] ∧
      AnalysisEvent.complete ∉ (analyzeInBackgroundTrace false).1 ∧
      AnalysisEvent.errorEvent ∉ (analyzeInBackgroundTrace false).1 ∧
      (analyzeInBackgroundTrace false).2 = some "ReferenceError".data := by decide

end SafeLink
